import Mathlib

set_option maxHeartbeats 1000000
set_option maxRecDepth 4000

/-!
Shallow embedding of the zpool-iostat streaming aggregation pipeline of the
zfs telegraf input plugin (parseZpoolIostatLine, sumIostatsLines,
getZpoolIostats, Gather).  Go maps of type map[string]interface{} are
modelled as insertion-ordered association lists of GoValue; Go's runtime
index-out-of-range and failed type assertion panics are modelled as explicit
outcomes (oob / crashed); the channel drained by getZpoolIostats is modelled
as the finite list of lines it yields during the cycle (once that list is
exhausted every subsequent poll finds the channel empty, which is exactly the
hypothesis of the staleness claims); the unbounded for-loop is run on fuel,
with fuelOut meaning the loop is still running after that many iterations,
and the drain state carries a ghost counter of executed time.Sleep calls.
-/

/-- A Go interface value as stored in one of the plugin's field maps:
nil, a string, or an int64. -/
inductive GoValue where
  | nil : GoValue
  | str : String → GoValue
  | int : Int → GoValue
deriving DecidableEq

/-- A Go map[string]α modelled as an insertion-ordered association list. -/
abbrev AssocMap (α : Type) := List (String × α)

/-- The fields map map[string]interface{} built by the parser. -/
abbrev Fields := AssocMap GoValue

/-- Go map read m[k] as an Option (none when the key is absent). -/
def lookupA {α : Type} : AssocMap α → String → Option α
  | [], _ => none
  | (k', v) :: rest, k => if k' = k then some v else lookupA rest k

/-- Go map assignment m[k] = v (replaces an existing binding in place,
otherwise appends). -/
def setA {α : Type} : AssocMap α → String → α → AssocMap α
  | [], k, v => [(k, v)]
  | (k', v') :: rest, k, v => if k' = k then (k, v) :: rest else (k', v') :: setA rest k v

/-- Go delete(m, k). -/
def removeA {α : Type} : AssocMap α → String → AssocMap α
  | [], _ => []
  | (k', v') :: rest, k => if k' = k then removeA rest k else (k', v') :: removeA rest k

/-- Go map read m[k] returning the zero value nil when the key is absent. -/
def mapRead (m : Fields) (k : String) : GoValue := (lookupA m k).getD .nil

/-- Accumulator helper for goParseInt64: consume decimal digits. -/
def digitsToNat : List Char → Nat → Option Nat
  | [], acc => some acc
  | c :: cs, acc =>
    if '0' ≤ c ∧ c ≤ '9' then digitsToNat cs (acc * 10 + (c.toNat - 48)) else none

/-- A nonempty all-digit character list as a Nat. -/
def parseDigitsNE : List Char → Option Nat
  | [] => none
  | l => digitsToNat l 0

/-- Largest int64 value, 2^63 - 1. -/
def maxInt64 : Nat := 2 ^ 63 - 1

/-- Go strconv.ParseInt(s, 10, 64): optional sign, at least one decimal
digit, nothing else; out-of-range values are an error (the caller only
checks err, so an error is modelled as none). -/
def goParseInt64 (s : String) : Option Int :=
  match s.data with
  | '+' :: rest =>
    match parseDigitsNE rest with
    | some n => if n ≤ maxInt64 then some (n : Int) else none
    | none => none
  | '-' :: rest =>
    match parseDigitsNE rest with
    | some n => if n ≤ maxInt64 + 1 then some (-(n : Int)) else none
    | none => none
  | l =>
    match parseDigitsNE l with
    | some n => if n ≤ maxInt64 then some (n : Int) else none
    | none => none

/-- strings.Split(line, tab): helper walking the characters. -/
def splitTabAux : List Char → List Char → List String
  | [], acc => [String.mk acc.reverse]
  | c :: cs, acc =>
    if c = '\t' then String.mk acc.reverse :: splitTabAux cs [] else splitTabAux cs (c :: acc)

/-- strings.Split(line, tab). -/
def splitTab (line : String) : List String := splitTabAux line.data []

/-- Result of parseZpoolIostatLine: nil,nil (skip), fields,nil (ok), an
error naming the offending column together with the raw column value and
the partially built fields (err), or a Go index-out-of-range runtime panic
at the given column index (oob). -/
inductive ParseResult where
  | skip : ParseResult
  | ok : Fields → ParseResult
  | err : String → String → Fields → ParseResult
  | oob : Nat → ParseResult
deriving DecidableEq

/-- The fixed column schema of parseZpoolIostatLine: column index, fields
key, and the column name used in the error message, in source order. -/
def schema : List (Nat × String × String) :=
  [(1, "iostat_alloc", "alloc"),
   (2, "iostat_free", "free"),
   (3, "operations_read", "operations->read"),
   (4, "operations_write", "operations->write"),
   (5, "bandwidth_read", "bandwidth->read"),
   (6, "bandwidth_write", "bandwidth->write"),
   (7, "total_wait_read", "total_wait->read"),
   (8, "total_wait_write", "total_wait->write"),
   (9, "disk_wait_read", "disk_wait->read"),
   (10, "disk_wait_write", "disk_wait->write"),
   (11, "syncq_wait_read", "syncq_wait->read"),
   (12, "syncq_wait_write", "syncq_wait->write"),
   (13, "asyncq_wait_read", "asyncq_wait->read"),
   (14, "asyncq_wait_write", "asyncq_wait->write"),
   (15, "scrub_wait", "scrub_wait"),
   (16, "syncq_read_operations_pend", "syncq_read_operations->pend"),
   (17, "syncq_read_operations_activ", "syncq_read_operations->activ"),
   (18, "syncq_write_operations_pend", "syncq_write_operations->pend"),
   (19, "syncq_write_operations_activ", "syncq_write_operations->activ"),
   (20, "asyncq_read_operations_pend", "asyncq_read_operations->pend"),
   (21, "asyncq_read_operations_activ", "asyncq_read_operations->activ"),
   (22, "asyncq_write_operations_pend", "asyncq_write_operations->pend"),
   (23, "asyncq_write_operations_activ", "asyncq_write_operations->activ"),
   (24, "scrubq_read_pend", "scrubq_read->pend"),
   (25, "scrubq_read_activ", "scrubq_read->activ")]

/-- The 25 sequential strconv.ParseInt blocks of parseZpoolIostatLine:
read col[i] (a missing index is a Go runtime panic), parse it, store it
under its key, or stop with the named error. -/
def parseFields : List (Nat × String × String) → List String → Fields → ParseResult
  | [], _, fields => .ok fields
  | (i, key, ename) :: rest, col, fields =>
    match col.get? i with
    | none => .oob i
    | some s =>
      match goParseInt64 s with
      | none => .err ename s fields
      | some v => parseFields rest col (setA fields key (.int v))

/-- The sentinel substitution loop: every column equal to the string dash
becomes the string zero. -/
def substDash (col : List String) : List String :=
  col.map fun s => if s = "-" then "0" else s

/-- parseZpoolIostatLine on the tab-split columns: a single column is a
benign empty line (skip); otherwise substitute the dash sentinel in every
column, set fields name from column zero, and run the 25 parse blocks. -/
def parseZpoolIostatCols (col : List String) : ParseResult :=
  if col.length = 1 then .skip
  else
    parseFields schema (substDash col) [("name", .str ((substDash col).headD ""))]

/-- parseZpoolIostatLine: tab-split the raw line and parse the columns. -/
def parseZpoolIostatLine (line : String) : ParseResult :=
  parseZpoolIostatCols (splitTab line)

/-- The 23 cumulative keys summed by sumIostatsLines, in source order. -/
def fieldsToSum : List String :=
  ["operations_read", "operations_write", "bandwidth_read", "bandwidth_write",
   "total_wait_read", "total_wait_write", "disk_wait_read", "disk_wait_write",
   "syncq_wait_read", "syncq_wait_write", "asyncq_wait_read", "asyncq_wait_write",
   "scrub_wait",
   "syncq_read_operations_pend", "syncq_read_operations_activ",
   "syncq_write_operations_pend", "syncq_write_operations_activ",
   "asyncq_read_operations_pend", "asyncq_read_operations_activ",
   "asyncq_write_operations_pend", "asyncq_write_operations_activ",
   "scrubq_read_pend", "scrubq_read_activ"]

/-- The two gauge keys overwritten (not summed) by sumIostatsLines. -/
def gaugeKeys : List String := ["iostat_alloc", "iostat_free"]

/-- Go type assertion v.(int64): succeeds only on an int value; any other
value (including nil from a missing key) panics, modelled as none. -/
def asInt : GoValue → Option Int
  | .int v => some v
  | _ => none

/-- Two's-complement wraparound of an integer into the int64 range, the
semantics of Go int64 addition on overflow. -/
def wrapInt64 (v : Int) : Int := (v + 2 ^ 63) % 2 ^ 64 - 2 ^ 63

/-- The summing loop of sumIostatsLines over the cumulative keys; the Go
int64 addition wraps around on overflow; a failed int64 type assertion
(none) models the Go runtime panic. -/
def sumGo (added : Fields) : List String → Fields → Option Fields
  | [], e => some e
  | k :: ks, e =>
    match asInt (mapRead e k), asInt (mapRead added k) with
    | some a, some b => sumGo added ks (setA e k (.int (wrapInt64 (a + b))))
    | _, _ => none

/-- sumIostatsLines: overwrite the two gauges from the incoming record,
then add each cumulative key of the incoming record onto the existing
accumulator.  none models a Go type-assertion panic. -/
def sumIostatsLines (exist added : Fields) : Option Fields :=
  sumGo added fieldsToSum
    (setA (setA exist "iostat_alloc" (mapRead added "iostat_alloc"))
      "iostat_free" (mapRead added "iostat_free"))

/-- Folding parsed records for one pool the way getZpoolIostats does: the
first record becomes the accumulator, every later record is merged in by
sumIostatsLines. -/
def foldRecords : Fields → List Fields → Option Fields
  | acc, [] => some acc
  | acc, r :: rs =>
    match sumIostatsLines acc r with
    | none => none
    | some acc2 => foldRecords acc2 rs

/-- State of the drain loop in getZpoolIostats: the per-pool accumulator
map, the linesCount counter (incremented only when a line merges into an
existing accumulator), and a ghost count of executed time.Sleep calls. -/
structure DrainState where
  poolFields : AssocMap Fields
  linesCount : Nat
  sleeps : Nat
deriving DecidableEq

/-- Outcome of the drain loop of getZpoolIostats: a normal return
(poolFields, nil), an error return (poolFields, err) for a parse error or
for the missing-name error, a Go runtime panic, or still looping after the
given fuel ran out. -/
inductive IostatResult where
  | done : DrainState → IostatResult
  | fail : String → String → DrainState → IostatResult
  | nameErr : String → DrainState → IostatResult
  | crashed : IostatResult
  | fuelOut : DrainState → IostatResult
deriving DecidableEq

/-- The select loop of getZpoolIostats, run on fuel.  When the queue still
holds a line the select takes the channel case: parse it, skip empty lines,
on a parse error return the accumulated poolFields together with the error,
otherwise merge the record into its pool (first record per pool is stored
without touching linesCount, a merge increments linesCount).  When the
queue is empty the default case runs: below numberOfPools merged lines it
sleeps 100ms and polls again, otherwise the loop ends. -/
def drainLoop : Nat → List String → DrainState → Nat → IostatResult
  | 0, _, st, _ => .fuelOut st
  | fuel + 1, queue, st, numberOfPools =>
    match queue with
    | line :: rest =>
      match parseZpoolIostatLine line with
      | .oob _ => .crashed
      | .err ename raw _ => .fail ename raw st
      | .skip => drainLoop fuel rest st numberOfPools
      | .ok fields =>
        match lookupA fields "name" with
        | none => .nameErr line st
        | some (.str nameAsString) =>
          match lookupA st.poolFields nameAsString with
          | some existsPoolStats =>
            match sumIostatsLines existsPoolStats fields with
            | none => .crashed
            | some merged =>
              drainLoop fuel rest
                ⟨setA st.poolFields nameAsString merged, st.linesCount + 1, st.sleeps⟩
                numberOfPools
          | none =>
            drainLoop fuel rest
              ⟨setA st.poolFields nameAsString fields, st.linesCount, st.sleeps⟩
              numberOfPools
        | some _ => .crashed
    | [] =>
      if st.linesCount < numberOfPools then
        drainLoop fuel [] ⟨st.poolFields, st.linesCount, st.sleeps + 1⟩ numberOfPools
      else .done st

/-- The all-zero drain state getZpoolIostats starts from. -/
def initState : DrainState := ⟨[], 0, 0⟩

/-- getZpoolIostats: when the iostat source channel was never created
(continuous collection disabled) return the empty map and no error at
once; otherwise run the drain loop on the lines the channel yields. -/
def getZpoolIostats (source : Option (List String)) (numberOfPools : Nat) (fuel : Nat) :
    IostatResult :=
  match source with
  | none => .done initState
  | some queue => drainLoop fuel queue initState numberOfPools

/-- Whether the drain loop has returned (normally or with an error or a
panic) rather than still being inside the loop. -/
def IostatResult.isDone : IostatResult → Bool
  | .fuelOut _ => false
  | _ => true

/-- The drain loop terminates on the given queue and pool count when some
finite number of loop iterations makes it return. -/
def drainTerminates (queue : List String) (numberOfPools : Nat) : Prop :=
  ∃ fuel, (drainLoop fuel queue initState numberOfPools).isDone = true

/-- Observe the final linesCount of a normally returned drain. -/
def drainCount : IostatResult → Option Nat
  | .done st => some st.linesCount
  | _ => none

/-- Observe the number of time.Sleep calls of a normally returned drain. -/
def drainSleeps : IostatResult → Option Nat
  | .done st => some st.sleeps
  | _ => none

/-- Observe one field of one pool of a normally returned drain. -/
def poolFieldVal (r : IostatResult) (pool k : String) : Option GoValue :=
  match r with
  | .done st => (lookupA st.poolFields pool).bind fun f => lookupA f k
  | _ => none

/-- Observe the pool names present in a normally returned drain. -/
def donePools : IostatResult → Option (List String)
  | .done st => some (st.poolFields.map Prod.fst)
  | _ => none

/-- Join a list of column values with tabs into one raw line. -/
def tabJoin : List String → String
  | [] => ""
  | [s] => s
  | s :: rest => s ++ "\t" ++ tabJoin rest

/-- The record produced by parsing a full-schema line whose 25 metric
columns are all zero, for the given pool name. -/
def zeroRec (nm : String) : Fields :=
  ("name", GoValue.str nm) :: schema.map fun p => (p.2.1, GoValue.int 0)

/-- An rpool record with operations_write 10 and all other metrics 0. -/
def recA10 : Fields := setA (zeroRec "rpool") "operations_write" (.int 10)

/-- An rpool record with operations_write 20 and all other metrics 0. -/
def recA20 : Fields := setA (zeroRec "rpool") "operations_write" (.int 20)

/-- A full-schema line for pool rpool whose operations-read column holds
the largest int64, 9223372036854775807, and every other metric 0. -/
def lineMax : String :=
  tabJoin ("rpool" :: "0" :: "0" :: "9223372036854775807" :: List.replicate 22 "0")

/-- One published accumulator record: measurement, fields, tags. -/
structure Published where
  measurement : String
  fields : Fields
  tags : AssocMap String
deriving DecidableEq

/-- Outcome of the per-pool publishing loop of Gather: finished, stopped on
a collaborator error (publishing only what came before), or hit a failed
type assertion (Go runtime panic). -/
inductive LoopOut where
  | ok : List Published → LoopOut
  | err : List Published → String → LoopOut
  | crash : LoopOut

/-- Copy every binding of extra into base, the way Gather folds one fields
map into another. -/
def mergeInto (base extra : Fields) : Fields :=
  extra.foldl (fun acc kv => setA acc kv.1 kv.2) base

/-- The per-pool loop of Gather: append the pool name, and when PoolMetrics
is on read the pool kstat file (an error aborts the cycle), merge in the
zpool-list fields and, when present, the drained iostat fields, take the
health tag (a non-string health is a Go type-assertion panic), drop the
name and health keys and publish one zfs_pool record. -/
def gatherPoolsLoop (pm : Bool) (kstat : String → Except String Fields)
    (zstats ios : AssocMap Fields) : List String → List Published → LoopOut
  | [], pub => .ok pub
  | pool :: rest, pub =>
    if pm then
      match kstat pool with
      | .error e => .err pub e
      | .ok f0 =>
        let f1 := mergeInto f0 ((lookupA zstats pool).getD [])
        let f2 :=
          match lookupA ios pool with
          | some pf => mergeInto f1 pf
          | none => f1
        match lookupA f2 "health" with
        | some (GoValue.str h) =>
          gatherPoolsLoop pm kstat zstats ios rest
            (pub ++ [⟨"zfs_pool", removeA (removeA f2 "name") "health",
              [("pool", pool), ("health", h)]⟩])
        | _ => .crash
    else gatherPoolsLoop pm kstat zstats ios rest pub

/-- The error message Gather receives for a failed column parse. -/
def parseErrMsg (ename raw : String) : String :=
  "Error parsing " ++ ename ++ ": " ++ raw

/-- The error message for a record without a name key. -/
def nameErrMsg (line : String) : String :=
  "Can not parse pool name from string " ++ line

/-- Gather for one cycle, over its external collaborators: the zpool-list
stats, the pool directory listing, the per-pool kstat reader, and the
fields gatherZfsKstats assembles from the kstat files.  The result pairs
the records handed to the accumulator with the returned error, none
standing for a cycle that never returns (still draining) or panics. -/
def Gather (zpoolStats : Except String (AssocMap Fields)) (pools : List String)
    (kstat : String → Except String Fields) (pm : Bool)
    (source : Option (List String)) (fuel : Nat) (zfsKstatFields : Fields) :
    Option (List Published × Option String) :=
  match zpoolStats with
  | .error e => some ([], some e)
  | .ok zstats =>
    match getZpoolIostats source pools.length fuel with
    | .fuelOut _ => none
    | .crashed => none
    | .fail ename raw _ => some ([], some (parseErrMsg ename raw))
    | .nameErr line _ => some ([], some (nameErrMsg line))
    | .done st =>
      match gatherPoolsLoop pm kstat zstats st.poolFields pools [] with
      | .crash => none
      | .err pub e => some (pub, some e)
      | .ok pub =>
        some (pub ++ [⟨"zfs", zfsKstatFields,
          [("pools", String.intercalate "::" pools)]⟩], none)

/-- A full-schema line for pool a with every metric column zero. -/
def lineA : String := tabJoin ("a" :: List.replicate 25 "0")

/-- A full-schema line for pool b with every metric column zero. -/
def lineB : String := tabJoin ("b" :: List.replicate 25 "0")

/-- A queue of exactly one line per pool for two pools. -/
def twoPoolLines : List String := [lineA, lineB]

/-- A queue of two lines per pool for two pools, interleaved. -/
def fourLines : List String := [lineA, lineB, lineA, lineB]

/-- The first line of the averaging scenario: gauges 100 and 50, the
operations-write column 10, everything else zero. -/
def scenLine1 : String :=
  tabJoin ("rpool" :: "100" :: "50" :: "0" :: "10" :: List.replicate 21 "0")

/-- The second line of the averaging scenario, operations-write 20. -/
def scenLine2 : String :=
  tabJoin ("rpool" :: "100" :: "50" :: "0" :: "20" :: List.replicate 21 "0")

/-- The parsed int64 at a column, with 0 for an absent or unparsable
column (only used where parsing is known to succeed). -/
def colVal (col : List String) (i : Nat) : Int :=
  ((col.get? i).bind goParseInt64).getD 0

/-- Whether an optional field value is present and an int64. -/
def isIntVal : Option GoValue → Bool
  | some (.int _) => true
  | _ => false

/-- Whether an optional field value is present and an integer inside the
int64 range, as every value produced by goParseInt64 is. -/
def isInt64Val : Option GoValue → Bool
  | some (.int v) => decide (-(2 ^ 63) ≤ v ∧ v < 2 ^ 63)
  | _ => false

/-- The int64 inside an optional field value, 0 otherwise (only used where
isIntVal is known). -/
def intVal (o : Option GoValue) : Int :=
  match o with
  | some (.int v) => v
  | _ => 0

/-- A record holding an in-range int64 under every gauge and cumulative
key, as every successfully parsed full-schema record does. -/
abbrev recWF (r : Fields) : Prop :=
  ∀ k ∈ gaugeKeys ++ fieldsToSum, isInt64Val (lookupA r k) = true

/-- A column value the parser accepts: the dash sentinel or a valid
base-10 int64. -/
abbrev colOK (s : String) : Prop :=
  s = "-" ∨ (goParseInt64 s).isSome = true

/-- The sum of one cumulative key over a list of records. -/
def cumSum (k : String) (rs : List Fields) : Int :=
  (rs.map fun r => intVal (lookupA r k)).sum

/-- The drain loop has returned (not run out of fuel) and executed no
time.Sleep beyond the s it had already executed. -/
def noPauseResult : IostatResult → Nat → Prop
  | .fuelOut _, _ => False
  | .done st, s => st.sleeps = s
  | .fail _ _ st, s => st.sleeps = s
  | .nameErr _ st, s => st.sleeps = s
  | .crashed, _ => True

theorem lookupA_setA_self {α : Type} (m : AssocMap α) (k : String) (v : α) :
    lookupA (setA m k v) k = some v := by
  induction m with
  | nil => simp [setA, lookupA]
  | cons kv rest ih =>
    obtain ⟨k', v'⟩ := kv
    by_cases h : k' = k
    · simp [setA, h, lookupA]
    · simp [setA, h, lookupA, ih]

theorem lookupA_setA_ne {α : Type} (m : AssocMap α) (k k' : String) (v : α)
    (h : k' ≠ k) : lookupA (setA m k v) k' = lookupA m k' := by
  have hne : k ≠ k' := fun hh => h hh.symm
  induction m with
  | nil => simp [setA, lookupA, hne]
  | cons kv rest ih =>
    obtain ⟨k0, v0⟩ := kv
    by_cases h0 : k0 = k
    · subst h0
      simp [setA, lookupA, hne]
    · simp only [setA, if_neg h0, lookupA]
      by_cases h1 : k0 = k'
      · simp [h1]
      · simp [h1, ih]

theorem isIntVal_iff (o : Option GoValue) :
    isIntVal o = true ↔ ∃ v : Int, o = some (.int v) := by
  cases o with
  | none => simp [isIntVal]
  | some g => cases g <;> simp [isIntVal]

theorem isInt64Val_iff (o : Option GoValue) :
    isInt64Val o = true ↔
      ∃ v : Int, o = some (.int v) ∧ -(2 ^ 63) ≤ v ∧ v < 2 ^ 63 := by
  cases o with
  | none => simp [isInt64Val]
  | some g => cases g <;> simp [isInt64Val]

theorem isIntVal_of_isInt64Val (o : Option GoValue) (h : isInt64Val o = true) :
    isIntVal o = true := by
  obtain ⟨v, hv, _, _⟩ := (isInt64Val_iff o).mp h
  rw [hv]
  rfl

theorem wrapInt64_range (v : Int) :
    -(2 ^ 63) ≤ wrapInt64 v ∧ wrapInt64 v < 2 ^ 63 := by
  unfold wrapInt64
  have h1 := Int.emod_nonneg (v + 2 ^ 63) (by norm_num : ((2 : Int) ^ 64) ≠ 0)
  have h2 := Int.emod_lt_of_pos (v + 2 ^ 63) (by norm_num : (0 : Int) < 2 ^ 64)
  constructor <;> omega

theorem wrapInt64_eq_self (v : Int) (h1 : -(2 ^ 63) ≤ v) (h2 : v < 2 ^ 63) :
    wrapInt64 v = v := by
  unfold wrapInt64
  rw [Int.emod_eq_of_lt (by omega) (by omega)]
  omega

theorem wrapInt64_add_left (x y : Int) :
    wrapInt64 (wrapInt64 x + y) = wrapInt64 (x + y) := by
  unfold wrapInt64
  rw [show (x + 2 ^ 63) % 2 ^ 64 - 2 ^ 63 + y + 2 ^ 63 =
      (x + 2 ^ 63) % 2 ^ 64 + y from by ring]
  rw [Int.emod_add_emod]
  rw [show x + 2 ^ 63 + y = x + y + 2 ^ 63 from by ring]

theorem isInt64Val_wrap (v : Int) :
    isInt64Val (some (.int (wrapInt64 v))) = true := by
  have h := wrapInt64_range v
  simp [isInt64Val]
  omega

theorem drain_empty_stuck (fuel : Nat) :
    ∀ (st : DrainState) (numberOfPools : Nat), st.linesCount < numberOfPools →
    drainLoop fuel [] st numberOfPools =
      .fuelOut ⟨st.poolFields, st.linesCount, st.sleeps + fuel⟩ := by
  induction fuel with
  | zero => intro st N h; cases st; simp [drainLoop]
  | succ n ih =>
    intro st N h
    have hstep : drainLoop (n + 1) [] st N =
        drainLoop n [] ⟨st.poolFields, st.linesCount, st.sleeps + 1⟩ N := by
      simp [drainLoop, if_pos h]
    rw [hstep, ih ⟨st.poolFields, st.linesCount, st.sleeps + 1⟩ N h]
    simp [Nat.add_assoc, Nat.add_comm 1 n]

theorem parseFields_ok :
    ∀ (sch : List (Nat × String × String)) (col : List String) (f : Fields),
    (∀ p ∈ sch, ∃ s v, col.get? p.1 = some s ∧ goParseInt64 s = some v) →
    (sch.map fun p => p.2.1).Nodup →
    ∃ g, parseFields sch col f = .ok g ∧
      (∀ p ∈ sch, lookupA g p.2.1 = some (.int (colVal col p.1))) ∧
      (∀ k, k ∉ sch.map (fun p => p.2.1) → lookupA g k = lookupA f k) := by
  intro sch
  induction sch with
  | nil =>
    intro col f _ _
    exact ⟨f, rfl, by simp, fun k _ => rfl⟩
  | cons p tl ih =>
    intro col f hval hnodup
    obtain ⟨i, key, ename⟩ := p
    obtain ⟨s, v, hs, hv⟩ := hval _ (List.mem_cons_self _ _)
    have hnd := List.nodup_cons.mp hnodup
    obtain ⟨g, hg, hvals, hframe⟩ :=
      ih col (setA f key (.int v))
        (fun q hq => hval q (List.mem_cons_of_mem _ hq)) hnd.2
    refine ⟨g, ?_, ?_, ?_⟩
    · simp only [parseFields, hs, hv]
      exact hg
    · intro q hq
      rcases List.mem_cons.mp hq with hq | hq
      · subst hq
        have heq1 : lookupA g key = lookupA (setA f key (.int v)) key := hframe key hnd.1
        have hs' : col.get? i = some s := hs
        have hcv : colVal col i = v := by
          unfold colVal
          rw [hs']
          simp [hv]
        show lookupA g key = some (.int (colVal col i))
        rw [heq1, lookupA_setA_self, hcv]
      · exact hvals q hq
    · intro k hk
      have hk1 : k ≠ key := by
        intro hkk
        exact hk (by simp [hkk])
      have hk2 : k ∉ tl.map fun p => p.2.1 := by
        intro hkk
        exact hk (by simp [hkk])
      rw [hframe k hk2, lookupA_setA_ne _ _ _ _ hk1]

theorem parseFields_err :
    ∀ (sch : List (Nat × String × String)) (col : List String) (f : Fields)
      (p0 : Nat × String × String) (s0 : String),
    List.Pairwise (fun a b => a.1 < b.1) sch →
    p0 ∈ sch →
    col.get? p0.1 = some s0 →
    goParseInt64 s0 = none →
    (∀ p ∈ sch, p.1 < p0.1 →
      ∃ s v, col.get? p.1 = some s ∧ goParseInt64 s = some v) →
    ∃ f2, parseFields sch col f = .err p0.2.2 s0 f2 := by
  intro sch
  induction sch with
  | nil =>
    intro col f p0 s0 _ hmem _ _ _
    cases hmem
  | cons p tl ih =>
    intro col f p0 s0 hpw hmem hs0 hbad hval
    obtain ⟨i, key, ename⟩ := p
    rcases List.mem_cons.mp hmem with heq | htl
    · subst heq
      refine ⟨f, ?_⟩
      have hs0' : col.get? i = some s0 := hs0
      simp only [parseFields, hs0', hbad]
    · have hlt : i < p0.1 :=
        (List.pairwise_cons.mp hpw).1 _ htl
      obtain ⟨s, v, hs, hv⟩ := hval _ (List.mem_cons_self _ _) hlt
      simp only [parseFields, hs, hv]
      exact ih col (setA f key (.int v)) p0 s0 (List.pairwise_cons.mp hpw).2 htl hs0 hbad
        (fun q hq hql => hval q (List.mem_cons_of_mem _ hq) hql)

theorem parseFields_oob :
    ∀ (sch : List (Nat × String × String)) (col : List String) (f : Fields)
      (k0 : String × String),
    List.Pairwise (fun a b => a.1 < b.1) sch →
    (col.length, k0) ∈ sch →
    (∀ p ∈ sch, p.1 < col.length →
      ∃ s v, col.get? p.1 = some s ∧ goParseInt64 s = some v) →
    parseFields sch col f = .oob col.length := by
  intro sch
  induction sch with
  | nil =>
    intro col f k0 _ hmem _
    cases hmem
  | cons p tl ih =>
    intro col f k0 hpw hmem hval
    obtain ⟨i, key, ename⟩ := p
    rcases List.mem_cons.mp hmem with heq | htl
    · injection heq with h1 h2
      subst h1
      have hnone : col.get? col.length = none := List.get?_eq_none.mpr le_rfl
      simp [parseFields, hnone]
    · have hlt : i < col.length :=
        (List.pairwise_cons.mp hpw).1 _ htl
      obtain ⟨s, v, hs, hv⟩ := hval _ (List.mem_cons_self _ _) hlt
      simp only [parseFields, hs, hv]
      exact ih col (setA f key (.int v)) k0 (List.pairwise_cons.mp hpw).2 htl
        (fun q hq hql => hval q (List.mem_cons_of_mem _ hq) hql)

theorem sumGo_ok :
    ∀ (ks : List String) (added e : Fields),
    ks.Nodup →
    (∀ k ∈ ks, isIntVal (lookupA e k) = true) →
    (∀ k ∈ ks, isIntVal (lookupA added k) = true) →
    ∃ e2, sumGo added ks e = some e2 ∧
      (∀ k ∈ ks, lookupA e2 k =
        some (.int (wrapInt64 (intVal (lookupA e k) + intVal (lookupA added k))))) ∧
      (∀ k, k ∉ ks → lookupA e2 k = lookupA e k) := by
  intro ks
  induction ks with
  | nil =>
    intro added e _ _ _
    exact ⟨e, rfl, by simp, fun k _ => rfl⟩
  | cons k0 tl ih =>
    intro added e hnodup he hadded
    obtain ⟨a, hea⟩ := (isIntVal_iff _).mp (he _ (List.mem_cons_self _ _))
    obtain ⟨b, hab⟩ := (isIntVal_iff _).mp (hadded _ (List.mem_cons_self _ _))
    have hnd := List.nodup_cons.mp hnodup
    have hstep : sumGo added (k0 :: tl) e =
        sumGo added tl (setA e k0 (.int (wrapInt64 (a + b)))) := by
      simp [sumGo, mapRead, hea, hab, asInt]
    obtain ⟨e2, h2, hvals, hframe⟩ :=
      ih added (setA e k0 (.int (wrapInt64 (a + b)))) hnd.2
        (fun k hk => by
          have hne : k ≠ k0 := fun hkk => hnd.1 (hkk ▸ hk)
          rw [lookupA_setA_ne _ _ _ _ hne]
          exact he k (List.mem_cons_of_mem _ hk))
        (fun k hk => hadded k (List.mem_cons_of_mem _ hk))
    refine ⟨e2, by rw [hstep]; exact h2, ?_, ?_⟩
    · intro k hk
      rcases List.mem_cons.mp hk with hk | hk
      · subst hk
        rw [hframe k hnd.1, lookupA_setA_self, hea, hab]
        simp [intVal]
      · have hne : k ≠ k0 := fun hkk => hnd.1 (hkk ▸ hk)
        rw [hvals k hk, lookupA_setA_ne _ _ _ _ hne]
    · intro k hk
      have hne : k ≠ k0 := fun hkk => hk (by simp [hkk])
      have hk2 : k ∉ tl := fun hkk => hk (List.mem_cons_of_mem _ hkk)
      rw [hframe k hk2, lookupA_setA_ne _ _ _ _ hne]

theorem sumIostatsLines_ok (a b : Fields) (ha : recWF a) (hb : recWF b) :
    ∃ c, sumIostatsLines a b = some c ∧ recWF c ∧
      (∀ k ∈ fieldsToSum, lookupA c k =
        some (.int (wrapInt64 (intVal (lookupA a k) + intVal (lookupA b k))))) ∧
      (∀ k ∈ gaugeKeys, lookupA c k = lookupA b k) ∧
      (∀ k, k ∉ gaugeKeys ++ fieldsToSum → lookupA c k = lookupA a k) := by
  obtain ⟨va, hva, _, _⟩ := (isInt64Val_iff _).mp (ha "iostat_alloc" (by decide))
  obtain ⟨vf, hvf, _, _⟩ := (isInt64Val_iff _).mp (ha "iostat_free" (by decide))
  obtain ⟨wa, hwa, _, _⟩ := (isInt64Val_iff _).mp (hb "iostat_alloc" (by decide))
  obtain ⟨wf', hwf, _, _⟩ := (isInt64Val_iff _).mp (hb "iostat_free" (by decide))
  have hafne : ("iostat_alloc" : String) ≠ "iostat_free" := by decide
  have hfane : ("iostat_free" : String) ≠ "iostat_alloc" := by decide
  have he0a : lookupA (setA (setA a "iostat_alloc" (mapRead b "iostat_alloc"))
      "iostat_free" (mapRead b "iostat_free")) "iostat_alloc" = some (.int wa) := by
    rw [lookupA_setA_ne _ _ _ _ hafne, lookupA_setA_self]
    simp [mapRead, hwa]
  have he0f : lookupA (setA (setA a "iostat_alloc" (mapRead b "iostat_alloc"))
      "iostat_free" (mapRead b "iostat_free")) "iostat_free" = some (.int wf') := by
    rw [lookupA_setA_self]
    simp [mapRead, hwf]
  have he0sum : ∀ k ∈ fieldsToSum,
      lookupA (setA (setA a "iostat_alloc" (mapRead b "iostat_alloc"))
        "iostat_free" (mapRead b "iostat_free")) k = lookupA a k := by
    intro k hk
    have h1 : k ≠ "iostat_free" := fun hkk => by
      rw [hkk] at hk
      exact absurd hk (by decide)
    have h2 : k ≠ "iostat_alloc" := fun hkk => by
      rw [hkk] at hk
      exact absurd hk (by decide)
    rw [lookupA_setA_ne _ _ _ _ h1, lookupA_setA_ne _ _ _ _ h2]
  obtain ⟨c, hc, hvals, hframe⟩ :=
    sumGo_ok fieldsToSum b
      (setA (setA a "iostat_alloc" (mapRead b "iostat_alloc"))
        "iostat_free" (mapRead b "iostat_free"))
      (by decide)
      (fun k hk => by
        rw [he0sum k hk]
        exact isIntVal_of_isInt64Val _ (ha k (List.mem_append_right _ hk)))
      (fun k hk => isIntVal_of_isInt64Val _ (hb k (List.mem_append_right _ hk)))
  have hgauges : ∀ k ∈ gaugeKeys, lookupA c k = lookupA b k := by
    intro k hk
    simp only [gaugeKeys, List.mem_cons, List.not_mem_nil, or_false] at hk
    rcases hk with hk | hk
    · subst hk
      rw [hframe _ (by decide), he0a, hwa]
    · subst hk
      rw [hframe _ (by decide), he0f, hwf]
  refine ⟨c, ?_, ?_, ?_, hgauges, ?_⟩
  · unfold sumIostatsLines
    exact hc
  · intro k hk
    rcases List.mem_append.mp hk with hk | hk
    · rw [hgauges k hk]
      exact hb k (List.mem_append_left _ hk)
    · rw [hvals k hk]
      exact isInt64Val_wrap _
  · intro k hk
    rw [hvals k hk, he0sum k hk]
  · intro k hk
    have hk1 : k ∉ fieldsToSum := fun hkk => hk (List.mem_append_right _ hkk)
    have h1 : k ≠ "iostat_free" := fun hkk => hk (by rw [hkk]; decide)
    have h2 : k ≠ "iostat_alloc" := fun hkk => hk (by rw [hkk]; decide)
    rw [hframe k hk1, lookupA_setA_ne _ _ _ _ h1, lookupA_setA_ne _ _ _ _ h2]

theorem foldRecords_ok :
    ∀ (rest : List Fields) (first : Fields), recWF first → (∀ r ∈ rest, recWF r) →
    ∃ acc, foldRecords first rest = some acc ∧ recWF acc ∧
      (∀ k ∈ fieldsToSum,
        lookupA acc k = some (.int (wrapInt64 (cumSum k (first :: rest))))) ∧
      (∀ k ∈ gaugeKeys, lookupA acc k = lookupA (rest.getLastD first) k) := by
  intro rest
  induction rest with
  | nil =>
    intro first h1 _
    refine ⟨first, rfl, h1, ?_, ?_⟩
    · intro k hk
      obtain ⟨v, hv, hlo, hhi⟩ := (isInt64Val_iff _).mp (h1 k (List.mem_append_right _ hk))
      rw [hv]
      simp [cumSum, intVal, hv, wrapInt64_eq_self v hlo hhi]
    · intro k _
      rfl
  | cons r rs ih =>
    intro first h1 h2
    obtain ⟨c, hc, hwfc, hsum, hgauge, _⟩ :=
      sumIostatsLines_ok first r h1 (h2 r (List.mem_cons_self _ _))
    obtain ⟨acc, hacc, hwfa, hsacc, hgacc⟩ :=
      ih c hwfc (fun q hq => h2 q (List.mem_cons_of_mem _ hq))
    refine ⟨acc, ?_, hwfa, ?_, ?_⟩
    · simp only [foldRecords, hc]
      exact hacc
    · intro k hk
      rw [hsacc k hk]
      have hc1 : cumSum k (c :: rs) =
          wrapInt64 (intVal (lookupA first k) + intVal (lookupA r k)) + cumSum k rs := by
        simp only [cumSum, List.map_cons, List.sum_cons, hsum k hk, intVal]
      have hc2 : cumSum k (first :: r :: rs) =
          intVal (lookupA first k) + intVal (lookupA r k) + cumSum k rs := by
        simp only [cumSum, List.map_cons, List.sum_cons]
        ring
      rw [hc1, hc2, wrapInt64_add_left]
    · intro k hk
      rw [hgacc k hk]
      cases rs with
      | nil => simpa using hgauge k hk
      | cons q qs =>
        show lookupA ((q :: qs).getLastD c) k = lookupA ((r :: q :: qs).getLastD first) k
        rw [List.getLastD_cons, List.getLastD_cons, List.getLastD_cons]

theorem drain_zero_pools :
    ∀ (queue : List String) (fuel : Nat) (st : DrainState), queue.length < fuel →
    noPauseResult (drainLoop fuel queue st 0) st.sleeps := by
  intro queue
  induction queue with
  | nil =>
    intro fuel st h
    cases fuel with
    | zero => exact absurd h (by simp)
    | succ f => simp [drainLoop, noPauseResult]
  | cons line rest ih =>
    intro fuel st h
    cases fuel with
    | zero => exact absurd h (by simp)
    | succ f =>
      have h' : rest.length < f := by
        simpa [Nat.succ_lt_succ_iff] using h
      simp only [drainLoop]
      cases hp : parseZpoolIostatLine line with
      | oob i => simp [noPauseResult]
      | err a b g => simp [noPauseResult]
      | skip => exact ih f st h'
      | ok fields =>
        cases hn : lookupA fields "name" with
        | none => simp [hn, noPauseResult]
        | some g =>
          cases g with
          | str nm =>
            cases hl : lookupA st.poolFields nm with
            | some ex =>
              cases hs : sumIostatsLines ex fields with
              | none => simp [hn, hl, hs, noPauseResult]
              | some merged =>
                simp only [hn, hl, hs]
                exact ih f _ h'
            | none =>
              simp only [hn, hl]
              exact ih f _ h'
          | nil => simp [hn, noPauseResult]
          | int v => simp [hn, noPauseResult]

theorem drain_skip_step (line : String) (rest : List String) (st : DrainState)
    (numberOfPools fuel : Nat) (h : (splitTab line).length = 1) :
    drainLoop (fuel + 1) (line :: rest) st numberOfPools =
      drainLoop fuel rest st numberOfPools := by
  have hp : parseZpoolIostatLine line = .skip := by
    unfold parseZpoolIostatLine parseZpoolIostatCols
    rw [if_pos h]
  simp [drainLoop, hp]

theorem drain_twoPool_step :
    ∀ fuel : Nat,
    drainLoop (fuel + 2) twoPoolLines initState 2 =
      drainLoop fuel [] ⟨[("a", zeroRec "a"), ("b", zeroRec "b")], 0, 0⟩ 2 := by
  intro fuel
  rfl

theorem schema_pairwise : List.Pairwise (fun a b => a.1 < b.1) schema := by decide

theorem schema_idx_ge_one : ∀ p ∈ schema, 1 ≤ p.1 := by decide

theorem schema_idx_le : ∀ p ∈ schema, p.1 ≤ 25 := by decide

theorem schema_keys_nodup : (schema.map fun p => p.2.1).Nodup := by decide

theorem schema_mem_of_bounds :
    ∀ L : Nat, 2 ≤ L → L ≤ 25 → ∃ k0, (L, k0) ∈ schema := by
  intro L h1 h2
  have hmap : L ∈ schema.map Prod.fst := by
    have hr : schema.map Prod.fst = List.range' 1 25 := by decide
    rw [hr, List.mem_range'_1]
    omega
  obtain ⟨⟨i, k0⟩, hp, hfst⟩ := List.mem_map.mp hmap
  simp only [] at hfst
  subst hfst
  exact ⟨k0, hp⟩

theorem substDash_valid (col : List String) (i : Nat) (hi : i < col.length)
    (hok : colOK ((col.get? i).getD "")) :
    ∃ s v, (substDash col).get? i = some s ∧ goParseInt64 s = some v := by
  cases hs0 : col.get? i with
  | none =>
    rw [List.get?_eq_none] at hs0
    omega
  | some s0 =>
    have hmap : (substDash col).get? i = some (if s0 = "-" then "0" else s0) := by
      unfold substDash
      rw [List.get?_map, hs0]
      rfl
    rw [hs0] at hok
    by_cases hd : s0 = "-"
    · refine ⟨"0", 0, ?_, ?_⟩
      · rw [hmap, if_pos hd]
      · decide
    · have hok' : s0 = "-" ∨ (goParseInt64 s0).isSome = true := hok
      rcases hok' with h1 | h2
      · exact absurd h1 hd
      · obtain ⟨v, hv⟩ := Option.isSome_iff_exists.mp h2
        exact ⟨s0, v, by rw [hmap, if_neg hd], hv⟩

/-- Claim C1, counterexample: in the two-merge scenario (gauges 100 and 50,
operation counts 10 and 20 for the same pool) the drained output holds the
raw sum 30 for the operation-count key, not the claimed average 15: no
division by a sample count happens at the end of the cycle. -/
theorem c1_counterexample :
    poolFieldVal (getZpoolIostats (some [scenLine1, scenLine2]) 1 4)
        "rpool" "operations_write" = some (GoValue.int 30) ∧
      some (GoValue.int 30) ≠ some (GoValue.int 15) := by
  refine ⟨by decide, by decide⟩

/-- Claim C1, amended: the gather cycle applies no normalization (the
averaging loop is commented out in getZpoolIostats): each summed key holds
the raw accumulated sum, so the scenario yields operation-count 30, while
the gauges hold alloc 100 and free 50 from the latest line. -/
theorem c1_amended :
    poolFieldVal (getZpoolIostats (some [scenLine1, scenLine2]) 1 4)
        "rpool" "operations_write" = some (GoValue.int 30) ∧
      poolFieldVal (getZpoolIostats (some [scenLine1, scenLine2]) 1 4)
        "rpool" "iostat_alloc" = some (GoValue.int 100) ∧
      poolFieldVal (getZpoolIostats (some [scenLine1, scenLine2]) 1 4)
        "rpool" "iostat_free" = some (GoValue.int 50) := by
  refine ⟨by decide, by decide, by decide⟩

/-- Claim C2, counterexample: with one known pool and a queue that yields
no lines at all, the drain loop of getZpoolIostats never terminates: no
number of loop iterations makes it return. -/
theorem c2_counterexample : ¬ drainTerminates [] 1 := by
  intro h
  obtain ⟨fuel, hf⟩ := h
  rw [show drainLoop fuel [] initState 1 =
      .fuelOut ⟨initState.poolFields, initState.linesCount, initState.sleeps + fuel⟩
    from drain_empty_stuck fuel initState 1 (by decide)] at hf
  simp [IostatResult.isDone] at hf

/-- Claim C2, amended: if the queue stops yielding lines while the merge
counter linesCount is still below numberOfPools, the drain loop does not
terminate: every poll takes the sleep branch, so after any number of
iterations it is still looping, having slept once per iteration, and
nothing is ever returned. -/
theorem c2_amended (fuel : Nat) (st : DrainState) (numberOfPools : Nat)
    (h : st.linesCount < numberOfPools) :
    drainLoop fuel [] st numberOfPools =
      .fuelOut ⟨st.poolFields, st.linesCount, st.sleeps + fuel⟩ :=
  drain_empty_stuck fuel st numberOfPools h

/-- Witness for the amended claim C2 at a concrete input. -/
theorem c2_amended_witness :
    initState.linesCount < 1 ∧
      drainLoop 3 [] initState 1 = .fuelOut ⟨[], 0, 3⟩ :=
  ⟨by decide, c2_amended 3 initState 1 (by decide)⟩

/-- Claim C8, counterexample: with zero known pools the drain step does
not always produce an empty per-entity mapping: lines already pending in
the queue are still consumed and returned as per-pool aggregates. -/
theorem c8_counterexample :
    donePools (getZpoolIostats (some [lineA]) 0 2) = some ["a"] ∧
      some (["a"] : List String) ≠ some ([] : List String) := by
  refine ⟨by decide, by decide⟩

/-- Claim C8, amended: with zero known pools the drain loop never sleeps
(it returns, fails or panics without ever taking the pause branch, since
linesCount is never below zero), and an empty queue makes it return the
empty state at the first poll; pending lines, however, are still drained
into per-pool aggregates before it returns. -/
theorem c8_amended (queue : List String) (st : DrainState) (fuel : Nat)
    (h : queue.length < fuel) :
    noPauseResult (drainLoop fuel queue st 0) st.sleeps ∧
      drainLoop 1 [] initState 0 = .done initState :=
  ⟨drain_zero_pools queue fuel st h, by decide⟩

/-- Witness for the amended claim C8 at a concrete input. -/
theorem c8_amended_witness :
    ([lineA] : List String).length < 2 ∧
      noPauseResult (drainLoop 2 [lineA] initState 0) initState.sleeps :=
  ⟨by decide, (c8_amended [lineA] initState 2 (by decide)).1⟩

/-- Claim C9: when the iostat source channel was never initialized,
getZpoolIostats returns at once with the empty per-pool mapping and no
error, for every pool count and any number of loop iterations allowed. -/
theorem c9_nil_source (numberOfPools fuel : Nat) :
    getZpoolIostats none numberOfPools fuel = .done ⟨[], 0, 0⟩ := rfl

/-- Claim C4, counterexample: the merge adds with Go int64 wraparound,
so two successfully parsed records whose operations-read column is the
int64 maximum 9223372036854775807 fold, through one merge of the drain
loop, to the wrapped value -2 and not to the mathematical sum. -/
theorem c4_counterexample :
    poolFieldVal (getZpoolIostats (some [lineMax, lineMax]) 1 4)
        "rpool" "operations_read" = some (GoValue.int (-2)) ∧
      GoValue.int (-2) ≠
        GoValue.int (9223372036854775807 + 9223372036854775807) := by
  refine ⟨by decide, by decide⟩

/-- Claim C4, amended: folding n full-schema records for one pool through
the accumulator rule (first record creates the accumulator, each later
record is merged by sumIostatsLines) leaves every cumulative key equal to
the int64 wraparound of the sum of its values over all n records, which
is the plain sum whenever that sum lies within the int64 range, and
leaves each gauge key equal to its value in the last merged record, for
every n. -/
theorem c4_merge_fold (first : Fields) (rest : List Fields)
    (h1 : recWF first) (h2 : ∀ r ∈ rest, recWF r) :
    ∃ acc, foldRecords first rest = some acc ∧
      (∀ k ∈ fieldsToSum,
        lookupA acc k = some (.int (wrapInt64 (cumSum k (first :: rest))))) ∧
      (∀ k ∈ gaugeKeys, lookupA acc k = lookupA (rest.getLastD first) k) := by
  obtain ⟨acc, hacc, _, hs, hg⟩ := foldRecords_ok rest first h1 h2
  exact ⟨acc, hacc, hs, hg⟩

/-- Witness for the amended claim C4 at two concrete records. -/
theorem c4_witness :
    ∃ acc, foldRecords recA10 [recA20] = some acc ∧
      (∀ k ∈ fieldsToSum,
        lookupA acc k = some (.int (wrapInt64 (cumSum k (recA10 :: [recA20]))))) ∧
      (∀ k ∈ gaugeKeys, lookupA acc k = lookupA (([recA20] : List Fields).getLastD recA10) k) :=
  c4_merge_fold recA10 [recA20] (by decide) (by decide)

/-- Claim C5: when draining the queue hits a line whose parse returns an
error, getZpoolIostats returns that error, Gather aborts the cycle
propagating the same error, and the list of published records for that
cycle is empty; lines that tab-split to a single column are skipped by the
drain loop without any effect on its state. -/
theorem c5_parse_error_aborts
    (zstats : AssocMap Fields) (pools : List String)
    (kstat : String → Except String Fields) (pm : Bool)
    (queue : List String) (fuel : Nat) (ename raw : String) (st : DrainState)
    (zk : Fields)
    (h : drainLoop fuel queue initState pools.length = .fail ename raw st) :
    Gather (.ok zstats) pools kstat pm (some queue) fuel zk =
        some ([], some (parseErrMsg ename raw)) ∧
      ∀ (line : String) (rest : List String) (st' : DrainState) (n f' : Nat),
        (splitTab line).length = 1 →
        drainLoop (f' + 1) (line :: rest) st' n = drainLoop f' rest st' n := by
  constructor
  · simp [Gather, getZpoolIostats, h]
  · intro line rest st' n f' hskip
    exact drain_skip_step line rest st' n f' hskip

/-- Witness for claim C5: a wrong-column-count line whose second column is
not an integer produces the named alloc error and Gather publishes
nothing. -/
theorem c5_witness :
    drainLoop 1 ["rpool\tbad"] initState (["p1"] : List String).length =
        .fail "alloc" "bad" initState ∧
      Gather (.ok []) ["p1"] (fun _ => .ok []) true (some ["rpool\tbad"]) 1 [] =
        some ([], some (parseErrMsg "alloc" "bad")) := by
  refine ⟨by decide, ?_⟩
  exact (c5_parse_error_aborts [] ["p1"] (fun _ => .ok []) true ["rpool\tbad"] 1
    "alloc" "bad" initState [] (by decide)).1

/-- Claim C6, counterexample: with two known pools and a queue delivering
exactly two lines (one per pool), the drain loop does not complete at all:
both lines are first records, so the merge counter stays at zero and every
poll of the empty queue sleeps and retries, forever. -/
theorem c6_counterexample : ¬ drainTerminates twoPoolLines 2 := by
  intro h
  obtain ⟨fuel, hf⟩ := h
  rcases fuel with _ | _ | f
  · exact absurd hf (by decide)
  · exact absurd hf (by decide)
  · rw [drain_twoPool_step f] at hf
    rw [drain_empty_stuck f ⟨[("a", zeroRec "a"), ("b", zeroRec "b")], 0, 0⟩ 2
      (by decide)] at hf
    simp [IostatResult.isDone] at hf

/-- Claim C6, amended: the drain loop stops at an empty poll only once
linesCount, which counts merges into an existing accumulator and not a
pool's first record, has reached numberOfPools, sleeping 100ms at every
empty poll before that; the claimed two-line scenario therefore never
completes, while a queue of four lines (two per pool) completes with merge
count 2 and no sleep at all. -/
theorem c6_amended :
    ¬ drainTerminates twoPoolLines 2 ∧
      drainCount (drainLoop 5 fourLines initState 2) = some 2 ∧
      drainSleeps (drainLoop 5 fourLines initState 2) = some 0 := by
  refine ⟨?_, by decide, by decide⟩
  intro h
  obtain ⟨fuel, hf⟩ := h
  rcases fuel with _ | _ | f
  · exact absurd hf (by decide)
  · exact absurd hf (by decide)
  · rw [drain_twoPool_step f] at hf
    rw [drain_empty_stuck f ⟨[("a", zeroRec "a"), ("b", zeroRec "b")], 0, 0⟩ 2
      (by decide)] at hf
    simp [IostatResult.isDone] at hf

/-- Claim C3, counterexample: the parser does not check the column count:
a 3-column line whose present columns all parse crashes with a Go
index-out-of-range panic at column 3 instead of returning a named error,
and a 27-column line parses successfully, silently ignoring the extra
column, instead of erroring. -/
theorem c3_counterexample :
    parseZpoolIostatLine "a\t1\t2" = ParseResult.oob 3 ∧
      parseZpoolIostatLine (tabJoin ("z" :: List.replicate 26 "0")) =
        ParseResult.ok (zeroRec "z") := by
  refine ⟨by decide, by decide⟩

/-- Claim C3, amended: the parser performs no column-count check.  For a
line with at least two columns, whatever the count, the first schema
column that is present but fails integer parsing after dash substitution
yields that column's named error carrying the offending column value (not
the whole raw line); when instead every present metric column parses, a
line with 2 to 25 columns crashes with an index-out-of-range panic at the
first missing column index, and a line with more than 26 columns whose 25
schema metric columns all parse succeeds silently, ignoring the extras. -/
theorem c3_amended :
    (∀ (col : List String) (p0 : Nat × String × String) (s0 : String),
      ¬ col.length = 1 → p0 ∈ schema →
      (substDash col).get? p0.1 = some s0 → goParseInt64 s0 = none →
      (∀ p ∈ schema, p.1 < p0.1 →
        ∃ s v, (substDash col).get? p.1 = some s ∧ goParseInt64 s = some v) →
      ∃ f2, parseZpoolIostatCols col = .err p0.2.2 s0 f2) ∧
    (∀ col : List String, 2 ≤ col.length → col.length ≤ 25 →
      (∀ i, i < col.length → 1 ≤ i → colOK ((col.get? i).getD "")) →
      parseZpoolIostatCols col = .oob col.length) ∧
    (∀ col : List String, 27 ≤ col.length →
      (∀ i, i < 26 → 1 ≤ i → colOK ((col.get? i).getD "")) →
      ∃ g, parseZpoolIostatCols col = .ok g) := by
  refine ⟨?_, ?_, ?_⟩
  · intro col p0 s0 hne1 hp0 hs0 hbad hearlier
    obtain ⟨f2, hf2⟩ := parseFields_err schema (substDash col)
      [("name", .str ((substDash col).headD ""))] p0 s0 schema_pairwise hp0 hs0 hbad
      hearlier
    refine ⟨f2, ?_⟩
    unfold parseZpoolIostatCols
    rw [if_neg hne1]
    exact hf2
  · intro col h2 h25 hvalid
    have hlen : (substDash col).length = col.length := by
      simp [substDash]
    have hne1 : ¬ col.length = 1 := by omega
    unfold parseZpoolIostatCols
    rw [if_neg hne1]
    obtain ⟨k0, hk0⟩ := schema_mem_of_bounds col.length h2 h25
    have hmem : ((substDash col).length, k0) ∈ schema := by
      rw [hlen]
      exact hk0
    have hval : ∀ p ∈ schema, p.1 < (substDash col).length →
        ∃ s v, (substDash col).get? p.1 = some s ∧ goParseInt64 s = some v := by
      intro p hp hplen
      rw [hlen] at hplen
      exact substDash_valid col p.1 hplen
        (hvalid p.1 hplen (schema_idx_ge_one p hp))
    have hoob := parseFields_oob schema (substDash col)
      [("name", .str ((substDash col).headD ""))] k0 schema_pairwise hmem hval
    rw [hoob, hlen]
  · intro col h27 hvalid
    have hne1 : ¬ col.length = 1 := by omega
    have hval : ∀ p ∈ schema,
        ∃ s v, (substDash col).get? p.1 = some s ∧ goParseInt64 s = some v := by
      intro p hp
      have h25 := schema_idx_le p hp
      have hlt : p.1 < col.length := by omega
      have h26 : p.1 < 26 := by omega
      exact substDash_valid col p.1 hlt (hvalid p.1 h26 (schema_idx_ge_one p hp))
    obtain ⟨g, hg, _, _⟩ := parseFields_ok schema (substDash col)
      [("name", .str ((substDash col).headD ""))] hval schema_keys_nodup
    refine ⟨g, ?_⟩
    unfold parseZpoolIostatCols
    rw [if_neg hne1]
    exact hg

/-- Witness for the amended claim C3 at concrete inputs: a named alloc
error carrying the offending value, a panic at the first missing column,
and a silent success on an over-long line. -/
theorem c3_amended_witness :
    (∃ f2, parseZpoolIostatCols ["a", "x", "2"] = .err "alloc" "x" f2) ∧
      parseZpoolIostatCols ["a", "1", "2"] = .oob 3 ∧
      ∃ g, parseZpoolIostatCols (List.replicate 27 "0") = .ok g := by
  refine ⟨?_, ?_, ?_⟩
  · exact c3_amended.1 ["a", "x", "2"] (1, "iostat_alloc", "alloc") "x" (by decide)
      (by decide) (by decide) (by decide)
      (fun p hp hlt => absurd hlt (by have h1 := schema_idx_ge_one p hp; omega))
  · exact c3_amended.2.1 ["a", "1", "2"] (by decide) (by decide) (by decide)
  · exact c3_amended.2.2 (List.replicate 27 "0") (by decide) (by decide)

/-- Claim C7: every column equal to the dash sentinel is replaced by zero
before integer parsing, so a full-schema line whose metric columns are all
dashes or valid integers parses without error and every dash metric column
comes out as the integer 0. -/
theorem c7_dash_zero (col : List String) (hlen : col.length = 26)
    (hok : ∀ i, i < 26 → 1 ≤ i → colOK ((col.get? i).getD "")) :
    ∃ g, parseZpoolIostatCols col = .ok g ∧
      ∀ p ∈ schema, col.get? p.1 = some "-" → lookupA g p.2.1 = some (.int 0) := by
  have hne1 : ¬ col.length = 1 := by omega
  have hval : ∀ p ∈ schema,
      ∃ s v, (substDash col).get? p.1 = some s ∧ goParseInt64 s = some v := by
    intro p hp
    have h25 := schema_idx_le p hp
    have h26 : p.1 < 26 := by omega
    have hlt : p.1 < col.length := by omega
    exact substDash_valid col p.1 hlt (hok p.1 h26 (schema_idx_ge_one p hp))
  obtain ⟨g, hg, hvals, _⟩ := parseFields_ok schema (substDash col)
    [("name", .str ((substDash col).headD ""))] hval schema_keys_nodup
  refine ⟨g, ?_, ?_⟩
  · unfold parseZpoolIostatCols
    rw [if_neg hne1]
    exact hg
  · intro p hp hdash
    have hsub : (substDash col).get? p.1 = some "0" := by
      unfold substDash
      rw [List.get?_map, hdash]
      rfl
    have hcv : colVal (substDash col) p.1 = 0 := by
      unfold colVal
      rw [hsub]
      decide
    rw [hvals p hp, hcv]

/-- Witness for claim C7 at a concrete line with a dash alloc column. -/
theorem c7_witness :
    (("rpool" :: "-" :: List.replicate 24 "0") : List String).length = 26 ∧
      ∃ g, parseZpoolIostatCols ("rpool" :: "-" :: List.replicate 24 "0") = .ok g ∧
        ∀ p ∈ schema,
          (("rpool" :: "-" :: List.replicate 24 "0") : List String).get? p.1 = some "-" →
          lookupA g p.2.1 = some (.int 0) :=
  ⟨by decide, c7_dash_zero ("rpool" :: "-" :: List.replicate 24 "0") (by decide) (by decide)⟩

/-- Claim C10: the dash substitution also applies to the name column: a
full-schema line whose first column is the dash sentinel parses
successfully into a record whose name is the string 0. -/
theorem c10_dash_name (col : List String) (hlen : col.length = 26)
    (h0 : col.get? 0 = some "-")
    (hok : ∀ i, i < 26 → 1 ≤ i → colOK ((col.get? i).getD "")) :
    ∃ g, parseZpoolIostatCols col = .ok g ∧
      lookupA g "name" = some (.str "0") := by
  have hne1 : ¬ col.length = 1 := by omega
  have hval : ∀ p ∈ schema,
      ∃ s v, (substDash col).get? p.1 = some s ∧ goParseInt64 s = some v := by
    intro p hp
    have h25 := schema_idx_le p hp
    have h26 : p.1 < 26 := by omega
    have hlt : p.1 < col.length := by omega
    exact substDash_valid col p.1 hlt (hok p.1 h26 (schema_idx_ge_one p hp))
  obtain ⟨g, hg, _, hframe⟩ := parseFields_ok schema (substDash col)
    [("name", .str ((substDash col).headD ""))] hval schema_keys_nodup
  refine ⟨g, ?_, ?_⟩
  · unfold parseZpoolIostatCols
    rw [if_neg hne1]
    exact hg
  · have hname : ("name" : String) ∉ schema.map fun p => p.2.1 := by decide
    rw [hframe "name" hname]
    have hsub0 : (substDash col).get? 0 = some "0" := by
      unfold substDash
      rw [List.get?_map, h0]
      rfl
    have hhead : (substDash col).head? = some "0" := by
      rw [← List.get?_zero]
      exact hsub0
    simp [lookupA, hhead]

/-- Witness for claim C10 at a concrete line with a dash name column. -/
theorem c10_witness :
    (("-" :: List.replicate 25 "0") : List String).get? 0 = some "-" ∧
      ∃ g, parseZpoolIostatCols ("-" :: List.replicate 25 "0") = .ok g ∧
        lookupA g "name" = some (.str "0") :=
  ⟨by decide, c10_dash_name ("-" :: List.replicate 25 "0") (by decide) (by decide) (by decide)⟩
